import Mathlib

/-!
Shallow embedding of the core of `sqld` (per-connection execution worker,
program evaluator, transaction state machine, and the primary-side
replication log), translated from the Rust sources:

* `src/sqld/src/query_analysis.rs` — statement kinds and the transaction
  state machine;
* `src/sqld/src/database/libsql.rs` — the connection worker loop, program
  and `Cond` evaluation, authorization gate, and the runtime blocking check;
* `src/sqld/src/replication/primary/logger.rs` — the shadow replication
  log file (`LogFile`), its commit/rollback protocol, frame lookup, and
  recovery from a bare database file.

Machine integers are modelled as `Nat` (overflow is immaterial for the
properties considered here); fallible code returns `Except`; the engine
(SQLite) and the result builder are external collaborators and are
abstracted by explicit per-step outcome parameters.
-/

namespace Sqld

/-! ## Statement kinds and the transaction state machine
    (src/sqld/src/query_analysis.rs) -/

/-- Statement kind classification, from `enum StmtKind` in
`query_analysis.rs`. -/
inductive StmtKind where
  | TxnBegin
  | TxnEnd
  | Read
  | Write
  | Other
deriving DecidableEq, Repr

/-- Transaction state, from `enum State` in `query_analysis.rs`. -/
inductive State where
  | Txn
  | Init
  | Invalid
deriving DecidableEq, Repr

/-- Transition function, from `State::step` in `query_analysis.rs`.  The
source mutates `self`; here the new state is returned.  The match arms are
kept in source order (Lean, like Rust, takes the first matching arm). -/
def State.step (s : State) (kind : StmtKind) : State :=
  match s, kind with
  | State.Txn, StmtKind.TxnBegin | State.Init, StmtKind.TxnEnd => State.Invalid
  | State.Txn, StmtKind.TxnEnd => State.Init
  | s, StmtKind.Other | s, StmtKind.Write | s, StmtKind.Read => s
  | State.Invalid, _ => State.Invalid
  | State.Init, StmtKind.TxnBegin => State.Txn

/-- Reset, from `State::reset` in `query_analysis.rs`. -/
def State.reset (_ : State) : State := State.Init

/-! ## Errors (src/sqld/src/error.rs)

Only the variants reached by the embedded code are modelled; payloads
that are only human-readable messages are kept as the data that selects
them. -/

/-- Error variants from `enum Error` in `error.rs` that the embedded
fragments can produce. -/
inductive Error where
  | LibSqlTxTimeout
  | InvalidBatchStep (step : Nat)
  | NotAuthorized (msg : String)
  | Blocked (reason : Option String)
deriving DecidableEq, Repr

/-! ## Authentication (used by `check_program_auth`)

Modelled from the spec: `Authenticated` and `Authorized` are declared in
`src/auth.rs`, which is not part of the provided sources; their shape is
pinned by the spec (§6: `authorized {0 = ReadOnly, 1 = FullAccess, absent
= Anonymous}`) and by the patterns matched in
`src/sqld/src/database/libsql.rs`. -/

/-- Authorization level of an authenticated client. -/
inductive Authorized where
  | ReadOnly
  | FullAccess
deriving DecidableEq, Repr

/-- Client identity as seen by the program evaluator. -/
inductive Authenticated where
  | Anonymous
  | Authorized (level : Authorized)
deriving DecidableEq, Repr

/-! ## Conds, steps and programs (src/sqld/src/database/libsql.rs)

`Cond`, `Step` and `Program` are declared in `src/database/mod.rs`, which
is not in the provided sources; the variants and fields below are exactly
the ones consumed by `eval_cond`, `execute_step` and
`check_program_auth` in `libsql.rs` (and described in spec §3). -/

/-- Boolean guard over prior step results, from the `Cond` patterns
matched in `eval_cond`. -/
inductive Cond where
  | ok (step : Nat)
  | err (step : Nat)
  | not (cond : Cond)
  | and (conds : List Cond)
  | or (conds : List Cond)

/-- One program step.  The engine and result builder are external: a
step's query is abstracted by its statement kind and by `queryOk`, which
records whether `execute_query` would succeed on the current engine
state. -/
structure Step where
  kind : StmtKind
  cond : Option Cond
  queryOk : Bool

/-- A program is an ordered list of steps (spec §3). -/
abbrev Program := List Step

/-- The closure `get_step_res` inside `eval_cond`:
`results.get(step).ok_or(Error::InvalidBatchStep(step))`. -/
def getStepRes (results : List Bool) (step : Nat) : Except Error Bool :=
  match results[step]? with
  | some res => Except.ok res
  | none => Except.error (Error.InvalidBatchStep step)

mutual

/-- Guard evaluation, from `eval_cond` in `libsql.rs`.  `Ok`/`Err` read
the recorded boolean of the referenced step; `And`/`Or` are `try_fold`s
over all children (stopping only on error), mirrored by `evalCondAnd` and
`evalCondOr`. -/
def evalCond (results : List Bool) : Cond → Except Error Bool
  | Cond.ok step => getStepRes results step
  | Cond.err step => Except.map Bool.not (getStepRes results step)
  | Cond.not cond => Except.map Bool.not (evalCond results cond)
  | Cond.and conds => evalCondAnd results conds true
  | Cond.or conds => evalCondOr results conds false

/-- The `And` arm's
`conds.iter().try_fold(true, |x, cond| eval_cond(cond, results).map(|y| x & y))`. -/
def evalCondAnd (results : List Bool) : List Cond → Bool → Except Error Bool
  | [], x => Except.ok x
  | cond :: conds, x =>
    match evalCond results cond with
    | Except.ok y => evalCondAnd results conds (x && y)
    | Except.error e => Except.error e

/-- The `Or` arm's
`conds.iter().try_fold(false, |x, cond| eval_cond(cond, results).map(|y| x | y))`. -/
def evalCondOr (results : List Bool) : List Cond → Bool → Except Error Bool
  | [], x => Except.ok x
  | cond :: conds, x =>
    match evalCond results cond with
    | Except.ok y => evalCondOr results conds (x || y)
    | Except.error e => Except.error e

end

/-- One step of `Connection::execute_step` in `libsql.rs`, reduced to the
boolean it records into `results`: `enabled` starts as the guard's value
(a guard error calls `builder.step_error` and leaves the step disabled);
an enabled step whose query errors also records `false`.  Builder
(response-size) failures abort the whole program and are outside this
model. -/
def executeStep (results : List Bool) (step : Step) : Bool :=
  let enabled :=
    match step.cond with
    | some cond =>
      match evalCond results cond with
      | Except.ok enabled => enabled
      | Except.error _ => false
    | none => true
  if enabled then step.queryOk else false

/-- The loop of `Connection::run` in `libsql.rs` restricted to the
`results` vector it threads through the steps. -/
def runProgram (steps : Program) : List Bool :=
  steps.foldl (fun results step => results ++ [executeStep results step]) []

/-! ## Authorization gate (`check_program_auth` in `libsql.rs`) -/

/-- Authorization gate, from `check_program_auth`.  The match arms are in
source order. -/
def checkProgramAuth (auth : Authenticated) (pgm : Program) : Except Error Unit :=
  match pgm with
  | [] => Except.ok ()
  | step :: rest =>
    match step.kind, auth with
    | _, Authenticated.Anonymous =>
      Except.error (Error.NotAuthorized "anonymous access not allowed")
    | StmtKind.Read, Authenticated.Authorized _ => checkProgramAuth auth rest
    | StmtKind.TxnBegin, _ => checkProgramAuth auth rest
    | StmtKind.TxnEnd, _ => checkProgramAuth auth rest
    | _, Authenticated.Authorized Authorized.FullAccess => checkProgramAuth auth rest
    | _, _ =>
      Except.error (Error.NotAuthorized "Current session is not authorized to run")

/-- `LibSqlDb::execute_program` in `libsql.rs`, restricted to its control
flow: the gate runs first, and only when it accepts is the program handed
to the connection worker (so a rejected program produces no step
results and the engine is untouched). -/
def executeProgram (auth : Authenticated) (pgm : Program) : Except Error (List Bool) :=
  match checkProgramAuth auth pgm with
  | Except.error e => Except.error e
  | Except.ok () => Except.ok (runProgram pgm)

/-! ## Runtime blocking check (`Connection::execute_query` in `libsql.rs`) -/

/-- Snapshot of the runtime config store consulted by `execute_query`
(`block_reads`, `block_writes`, `block_reason` per spec §4.F). -/
structure DatabaseConfig where
  block_reads : Bool
  block_writes : Bool
  block_reason : Option String
deriving DecidableEq, Repr

/-- The `blocked` computation at the top of `Connection::execute_query`. -/
def blockedByConfig (config : DatabaseConfig) (kind : StmtKind) : Bool :=
  match kind with
  | StmtKind.Read | StmtKind.TxnBegin | StmtKind.Other => config.block_reads
  | StmtKind.Write => config.block_reads || config.block_writes
  | StmtKind.TxnEnd => false

/-- Prefix of `Connection::execute_query`: if the statement kind is
blocked by the runtime config, fail with `Blocked(reason)` before
preparing; otherwise proceed to the engine (abstracted by `engineResult`). -/
def executeQuery (config : DatabaseConfig) (kind : StmtKind)
    (engineResult : Except Error (Nat × Option Int)) : Except Error (Nat × Option Int) :=
  if blockedByConfig config kind then
    Except.error (Error.Blocked config.block_reason)
  else
    engineResult

/-! ## Connection worker loop (`LibSqlDb::new` in `libsql.rs`)

The worker thread owns `Connection { timeout_deadline, timed_out, .. }`
and loops: receive with a deadline when one is armed; on deadline expiry
execute `ROLLBACK`, set `timed_out`, clear the deadline and continue; on a
message, hand the connection to the callback, or `Err(LibSqlTxTimeout)`
when `timed_out` is set.  One loop iteration is modelled as a step
function on the mutable connection fields; instants are `Nat`
milliseconds. -/

/-- Transaction timeout.  `TXN_TIMEOUT` is declared in
`src/database/mod.rs` (not in the provided sources); the spec fixes the
default at 5 s. -/
def TXN_TIMEOUT : Nat := 5000

/-- The connection fields the worker loop mutates. -/
structure ConnState where
  timeout_deadline : Option Nat
  timed_out : Bool
deriving DecidableEq, Repr

/-- What reaches the worker in one loop iteration: either
`recv_deadline` timed out, or a request (program) arrived.  `opensTxn`
abstracts the engine condition `is_autocommit_before &&
!conn.is_autocommit()` observed by `Connection::run` after the steps. -/
inductive WorkerEvent where
  | timeout
  | request (pgm : Program) (opensTxn : Bool) (now : Nat)

/-- Whether the loop iteration touched the engine, and how. -/
inductive EngineAction where
  | untouched
  | rollback
  | ranProgram
deriving DecidableEq, Repr

/-- One iteration of the worker loop in `LibSqlDb::new`, paired with the
reply sent to the caller (`none` on deadline expiry, which replies to
nobody).  Mirrors: the `RecvTimeoutError::Timeout` arm
(`connection.rollback(); connection.timed_out = true;
connection.timeout_deadline = None; continue`), and the message arm
(`maybe_conn = if !timed_out then Ok else Err(LibSqlTxTimeout)` handed to
the callback; a served program runs `Connection::run`, which arms the
deadline at `now + TXN_TIMEOUT` when a transaction was left open). -/
def workerStep (conn : ConnState) (event : WorkerEvent) :
    ConnState × EngineAction × Option (Except Error (List Bool)) :=
  match event with
  | WorkerEvent.timeout =>
    ({ timeout_deadline := none, timed_out := true }, EngineAction.rollback, none)
  | WorkerEvent.request pgm opensTxn now =>
    if conn.timed_out then
      (conn, EngineAction.untouched, some (Except.error Error.LibSqlTxTimeout))
    else
      ({ conn with
          timeout_deadline :=
            if opensTxn then some (now + TXN_TIMEOUT) else conn.timeout_deadline },
        EngineAction.ranProgram, some (Except.ok (runProgram pgm)))

/-! ## Helper lemmas -/

/-- Evaluation of a list of guards left-to-right, stopping at the first
error, keeping all values.  Used to characterize the `And`/`Or` folds. -/
def evalEach (results : List Bool) : List Cond → Except Error (List Bool)
  | [] => Except.ok []
  | c :: cs =>
    match evalCond results c with
    | Except.error e => Except.error e
    | Except.ok b =>
      match evalEach results cs with
      | Except.error e => Except.error e
      | Except.ok bs => Except.ok (b :: bs)

/-- The `And` fold of `eval_cond` evaluates every child left-to-right
(stopping only on an error) and combines the values with boolean and. -/
theorem evalCondAnd_eq_each (results : List Bool) (conds : List Cond) :
    ∀ x, evalCondAnd results conds x =
      Except.map (fun l => List.foldl (fun a b => a && b) x l)
        (evalEach results conds) := by
  induction conds with
  | nil => intro x; simp [evalEach, evalCondAnd, Except.map]
  | cons c cs ih =>
    intro x
    rw [evalCondAnd, evalEach]
    cases h : evalCond results c with
    | error e => simp [Except.map]
    | ok y =>
      cases hm : evalEach results cs with
      | error e => simp [ih, hm, Except.map]
      | ok l => simp [ih, hm, Except.map]

/-- The `Or` fold of `eval_cond` evaluates every child left-to-right
(stopping only on an error) and combines the values with boolean or. -/
theorem evalCondOr_eq_each (results : List Bool) (conds : List Cond) :
    ∀ x, evalCondOr results conds x =
      Except.map (fun l => List.foldl (fun a b => a || b) x l)
        (evalEach results conds) := by
  induction conds with
  | nil => intro x; simp [evalEach, evalCondOr, Except.map]
  | cons c cs ih =>
    intro x
    rw [evalCondOr, evalEach]
    cases h : evalCond results c with
    | error e => simp [Except.map]
    | ok y =>
      cases hm : evalEach results cs with
      | error e => simp [ih, hm, Except.map]
      | ok l => simp [ih, hm, Except.map]

/-- The `Anonymous` arm of `check_program_auth` rejects any nonempty
program. -/
theorem checkProgramAuth_anonymous (pgm : Program) (h : pgm ≠ []) :
    checkProgramAuth Authenticated.Anonymous pgm =
      Except.error (Error.NotAuthorized "anonymous access not allowed") := by
  cases pgm with
  | nil => exact absurd rfl h
  | cons s rest => obtain ⟨k, c, q⟩ := s; cases k <;> rfl

/-- `check_program_auth` accepts a `ReadOnly` identity exactly when every
step is a `Read`, `TxnBegin` or `TxnEnd` statement. -/
theorem checkProgramAuth_readonly (pgm : Program) :
    checkProgramAuth (Authenticated.Authorized Authorized.ReadOnly) pgm = Except.ok () ↔
      ∀ s ∈ pgm, s.kind = StmtKind.Read ∨ s.kind = StmtKind.TxnBegin ∨
        s.kind = StmtKind.TxnEnd := by
  induction pgm with
  | nil => simp [checkProgramAuth]
  | cons s rest ih =>
    obtain ⟨k, c, q⟩ := s
    cases k <;> simp [checkProgramAuth, ih]

/-- `check_program_auth` always accepts a `FullAccess` identity. -/
theorem checkProgramAuth_fullAccess (pgm : Program) :
    checkProgramAuth (Authenticated.Authorized Authorized.FullAccess) pgm =
      Except.ok () := by
  induction pgm with
  | nil => rfl
  | cons s rest ih => obtain ⟨k, c, q⟩ := s; cases k <;> simpa [checkProgramAuth] using ih

/-- Every rejection of `check_program_auth` is a `NotAuthorized` error. -/
theorem checkProgramAuth_error_shape (auth : Authenticated) (pgm : Program) :
    checkProgramAuth auth pgm = Except.ok () ∨
      ∃ msg, checkProgramAuth auth pgm = Except.error (Error.NotAuthorized msg) := by
  induction pgm with
  | nil => left; rfl
  | cons s rest ih =>
    obtain ⟨k, c, q⟩ := s
    cases auth with
    | Anonymous => right; cases k <;> exact ⟨_, rfl⟩
    | Authorized level =>
      cases level <;> cases k <;>
        first
          | (right; exact ⟨_, rfl⟩)
          | simpa [checkProgramAuth] using ih

/-! ## Claim theorems -/

/-- C3: the transaction state machine satisfies exactly the listed
transitions: `(Init, TxnBegin) → Txn`; `(Txn, TxnEnd) → Init`;
`(Txn, TxnBegin) → Invalid`; `(Init, TxnEnd) → Invalid`; `Read`, `Write`
and `Other` leave every state unchanged; `Invalid` is absorbing for every
kind; and `reset` yields `Init`. -/
theorem state_machine_spec :
    State.step State.Init StmtKind.TxnBegin = State.Txn ∧
    State.step State.Txn StmtKind.TxnEnd = State.Init ∧
    State.step State.Txn StmtKind.TxnBegin = State.Invalid ∧
    State.step State.Init StmtKind.TxnEnd = State.Invalid ∧
    (∀ s, State.step s StmtKind.Read = s) ∧
    (∀ s, State.step s StmtKind.Write = s) ∧
    (∀ s, State.step s StmtKind.Other = s) ∧
    (∀ k, State.step State.Invalid k = State.Invalid) ∧
    (∀ s, State.reset s = State.Init) := by
  refine ⟨rfl, rfl, rfl, rfl, ?_, ?_, ?_, ?_, ?_⟩ <;> intro x <;> cases x <;> rfl

/-- C10: the runtime blocking check of `execute_query` never rejects a
`TxnEnd` statement (even when both `block_reads` and `block_writes` are
set); a `Write` statement is blocked iff `block_reads || block_writes`;
`Read`, `TxnBegin` and `Other` statements are blocked iff `block_reads`;
and a blocked kind fails with `Blocked(reason)` before the engine is
consulted, while an unblocked kind proceeds to the engine. -/
theorem blocked_check_spec :
    ∀ (config : DatabaseConfig) (engineResult : Except Error (Nat × Option Int)),
      executeQuery config StmtKind.TxnEnd engineResult = engineResult ∧
      blockedByConfig config StmtKind.TxnEnd = false ∧
      blockedByConfig config StmtKind.Write = (config.block_reads || config.block_writes) ∧
      blockedByConfig config StmtKind.Read = config.block_reads ∧
      blockedByConfig config StmtKind.TxnBegin = config.block_reads ∧
      blockedByConfig config StmtKind.Other = config.block_reads ∧
      (∀ kind, executeQuery config kind engineResult =
        if blockedByConfig config kind then Except.error (Error.Blocked config.block_reason)
        else engineResult) := by
  intro config engineResult
  exact ⟨by simp [executeQuery, blockedByConfig], rfl, rfl, rfl, rfl, rfl, fun _ => rfl⟩

/-- C4: the authorization gate, applied before any step executes:
an `Anonymous` identity is rejected on any nonempty program; a `ReadOnly`
identity is accepted iff every step is `Read`, `TxnBegin` or `TxnEnd`;
`FullAccess` is always accepted; every rejection is a `NotAuthorized`
error; and a rejected program produces no step results (the program is
never handed to the worker, so the engine is untouched). -/
theorem program_auth_spec :
    ∀ (pgm : Program),
      (pgm ≠ [] → checkProgramAuth Authenticated.Anonymous pgm =
        Except.error (Error.NotAuthorized "anonymous access not allowed")) ∧
      (checkProgramAuth (Authenticated.Authorized Authorized.ReadOnly) pgm = Except.ok () ↔
        ∀ s ∈ pgm, s.kind = StmtKind.Read ∨ s.kind = StmtKind.TxnBegin ∨
          s.kind = StmtKind.TxnEnd) ∧
      checkProgramAuth (Authenticated.Authorized Authorized.FullAccess) pgm = Except.ok () ∧
      (∀ auth, checkProgramAuth auth pgm = Except.ok () ∨
        ∃ msg, checkProgramAuth auth pgm = Except.error (Error.NotAuthorized msg)) ∧
      (∀ auth e, checkProgramAuth auth pgm = Except.error e →
        executeProgram auth pgm = Except.error e) ∧
      (∀ auth, checkProgramAuth auth pgm = Except.ok () →
        executeProgram auth pgm = Except.ok (runProgram pgm)) := by
  intro pgm
  refine ⟨checkProgramAuth_anonymous pgm, checkProgramAuth_readonly pgm,
    checkProgramAuth_fullAccess pgm, fun auth => checkProgramAuth_error_shape auth pgm,
    ?_, ?_⟩
  · intro auth e h; simp [executeProgram, h]
  · intro auth h; simp [executeProgram, h]

/-- C4 witness: on the one-step `Write` program, the gate rejects both
the anonymous and the read-only identity with `NotAuthorized`, accepts
full access, and a rejected program yields no step results. -/
theorem program_auth_spec_witness :
    checkProgramAuth Authenticated.Anonymous [⟨StmtKind.Write, none, true⟩] =
      Except.error (Error.NotAuthorized "anonymous access not allowed") ∧
    executeProgram Authenticated.Anonymous [⟨StmtKind.Write, none, true⟩] =
      Except.error (Error.NotAuthorized "anonymous access not allowed") ∧
    executeProgram (Authenticated.Authorized Authorized.FullAccess)
      [⟨StmtKind.Write, none, true⟩] = Except.ok [true] := by
  have h := program_auth_spec [⟨StmtKind.Write, none, true⟩]
  have h1 := h.1 (by simp)
  refine ⟨h1, h.2.2.2.2.1 _ _ h1, ?_⟩
  have h2 := h.2.2.2.2.2 (Authenticated.Authorized Authorized.FullAccess) h.2.2.1
  simpa using h2

/-- C1 counterexample: a step whose guard evaluates `false` (here
`Or []`) records `false` in `results`, and `Err{0}` over that record
evaluates to `true` — not `false` as the claim states.  Moreover the
`And` fold does not value-short-circuit: after a `false` conjunct, an
out-of-range reference still surfaces `InvalidBatchStep` instead of a
short-circuited `false`. -/
theorem cond_disabled_counterexample :
    runProgram [⟨StmtKind.Read, some (Cond.or []), true⟩] = [false] ∧
    evalCond [false] (Cond.err 0) = Except.ok true ∧
    evalCond [false] (Cond.err 0) ≠ Except.ok false ∧
    evalCond [] (Cond.and [Cond.or [], Cond.ok 99]) =
      Except.error (Error.InvalidBatchStep 99) ∧
    evalCond [] (Cond.and [Cond.or [], Cond.ok 99]) ≠ Except.ok false := by
  refine ⟨rfl, rfl, ?_, rfl, ?_⟩
  · rw [show evalCond [false] (Cond.err 0) = Except.ok true from rfl]
    simp
  · rw [show evalCond [] (Cond.and [Cond.or [], Cond.ok 99]) =
        Except.error (Error.InvalidBatchStep 99) from rfl]
    simp

/-- C1 (amended): a step's recorded result is one boolean — `true` iff
the step was enabled and its query succeeded — so for a disabled prior
step `j`, `Ok{j}` evaluates to `false` and `Err{j}` evaluates to `true`
(not `false`); `Not` negates its child's value; `And`/`Or` evaluate all
children left-to-right, stopping only on an error (e.g. an out-of-range
step reference), and combine the values by boolean and/or (no value
short-circuit). -/
theorem cond_eval_spec :
    (∀ (steps : Program) (j : Nat), (runProgram steps)[j]? = some false →
      evalCond (runProgram steps) (Cond.ok j) = Except.ok false ∧
      evalCond (runProgram steps) (Cond.err j) = Except.ok true) ∧
    (∀ results cond, evalCond results (Cond.not cond) =
      Except.map Bool.not (evalCond results cond)) ∧
    (∀ results conds, evalCond results (Cond.and conds) =
      Except.map (fun l => List.foldl (fun a b => a && b) true l)
        (evalEach results conds)) ∧
    (∀ results conds, evalCond results (Cond.or conds) =
      Except.map (fun l => List.foldl (fun a b => a || b) false l)
        (evalEach results conds)) := by
  refine ⟨?_, fun results cond => rfl, ?_, ?_⟩
  · intro steps j h
    constructor <;> simp [evalCond, getStepRes, h, Except.map]
  · intro results conds
    rw [evalCond, evalCondAnd_eq_each]
  · intro results conds
    rw [evalCond, evalCondOr_eq_each]

/-- C1 witness: instantiating the amended claim on the one-step program
whose guard `Or []` is false: the step records `false`, `Ok{0}` gives
`false` and `Err{0}` gives `true`. -/
theorem cond_eval_spec_witness :
    evalCond (runProgram [⟨StmtKind.Read, some (Cond.or []), true⟩]) (Cond.ok 0) =
      Except.ok false ∧
    evalCond (runProgram [⟨StmtKind.Read, some (Cond.or []), true⟩]) (Cond.err 0) =
      Except.ok true :=
  cond_eval_spec.1 [⟨StmtKind.Read, some (Cond.or []), true⟩] 0 rfl

/-- C2 counterexample: after a deadline expiry the worker sets
`timed_out`; the next request is answered with `LibSqlTxTimeout` with the
engine untouched, but the flag is NOT cleared — the state after the
reply still has `timed_out = true`, so the next request does not run
normally. -/
theorem worker_timeout_counterexample :
    workerStep ⟨some 5, false⟩ WorkerEvent.timeout =
      (⟨none, true⟩, EngineAction.rollback, none) ∧
    workerStep ⟨none, true⟩ (WorkerEvent.request [] false 6) =
      (⟨none, true⟩, EngineAction.untouched,
        some (Except.error Error.LibSqlTxTimeout)) ∧
    (workerStep ⟨none, true⟩ (WorkerEvent.request [] false 6)).1.timed_out ≠ false := by
  exact ⟨rfl, rfl, by simp [workerStep]⟩

/-- C2 (amended): when the transaction deadline expires the worker
executes `ROLLBACK`, sets `timed_out` and clears the deadline; a request
arriving while `timed_out` is set is answered with `LibSqlTxTimeout`
without touching the engine, and the connection state — including the
`timed_out` flag — is left unchanged, so every subsequent request is
answered the same way (the flag is never cleared). -/
theorem worker_timeout_spec :
    ∀ (conn : ConnState) (d : Nat) (pgm : Program) (opensTxn : Bool) (now : Nat),
      (conn.timeout_deadline = some d →
        workerStep conn WorkerEvent.timeout =
          (⟨none, true⟩, EngineAction.rollback, none)) ∧
      (conn.timed_out = true →
        workerStep conn (WorkerEvent.request pgm opensTxn now) =
          (conn, EngineAction.untouched,
            some (Except.error Error.LibSqlTxTimeout))) := by
  intro conn d pgm opensTxn now
  constructor
  · intro _; rfl
  · intro h; simp [workerStep, h]

/-- C2 witness: instantiating the amended claim right after an expiry. -/
theorem worker_timeout_spec_witness :
    workerStep ⟨some 7, false⟩ WorkerEvent.timeout =
      (⟨none, true⟩, EngineAction.rollback, none) ∧
    workerStep ⟨none, true⟩ (WorkerEvent.request [] false 9) =
      (⟨none, true⟩, EngineAction.untouched,
        some (Except.error Error.LibSqlTxTimeout)) :=
  ⟨(worker_timeout_spec ⟨some 7, false⟩ 7 [] false 9).1 rfl,
    (worker_timeout_spec ⟨none, true⟩ 0 [] false 9).2 rfl⟩

/-! ## Replication log (src/sqld/src/replication/primary/logger.rs)

The shadow log file.  The on-disk file is modelled as a partial map from
byte offsets to frame records (`push_page` writes a whole frame with
positional I/O at a computed offset; `read_frame_byte_offset` reads one
back).  `Frame`/`FrameHeader` are declared in `src/replication/frame.rs`,
which is not in the provided sources; their layout is taken from spec §3
(`FrameHeader = { frame_no: u64, checksum: u64, page_no: u32,
size_after: u32 }`, body of `WAL_PAGE_SIZE = 4096` bytes; the model does
not re-check the body length, which `Frame::from_parts` asserts). -/

/-- Frame header (spec §3; 24 bytes on disk). -/
structure FrameHeader where
  frame_no : Nat
  checksum : Nat
  page_no : Nat
  size_after : Nat
deriving DecidableEq, Repr

/-- A log frame: header plus page body bytes. -/
structure Frame where
  header : FrameHeader
  page : List Nat
deriving DecidableEq, Repr

/-- Builds a frame from parts (`Frame::from_parts` in
`src/replication/frame.rs`, modelled from the spec). -/
def Frame.from_parts (header : FrameHeader) (data : List Nat) : Frame :=
  ⟨header, data⟩

/-- Log file header, from `struct LogFileHeader` in `logger.rs`
(64 packed bytes on disk: u64 magic, u64 start_checksum, u128 db_id,
u64 start_frame_no, u64 frame_count, u32 version, i32 page_size,
4 × u16 sqld_version). -/
structure LogFileHeader where
  magic : Nat
  start_checksum : Nat
  db_id : Nat
  start_frame_no : Nat
  frame_count : Nat
  version : Nat
  page_size : Nat
  sqld_version : Nat
deriving DecidableEq, Repr

/-- A buffered dirty page, from `struct WalPage` in `logger.rs`. -/
structure WalPage where
  page_no : Nat
  size_after : Nat
  data : List Nat
deriving DecidableEq, Repr

/-- Read errors of frame lookup, from `enum LogReadError` in
`logger.rs` (`Error` stands for its wrapped `anyhow::Error`). -/
inductive LogReadError where
  | SnapshotRequired
  | Ahead
  | Error
deriving DecidableEq, Repr

/-- The in-memory `LogFile` state, from `struct LogFile` in `logger.rs`.
The `File` is the byte-offset-indexed map `data`; compaction limits and
instants are irrelevant to the claims and omitted. -/
structure LogFile where
  data : Nat → Option Frame
  header : LogFileHeader
  uncommitted_frame_count : Nat
  uncommitted_checksum : Nat
  commited_checksum : Nat

/-- Modelled from the spec: `CRC_64_GO_ISO` is the `crc` crate's CRC-64
with the Go-ISO polynomial (width 64, reflected polynomial
`0xD800000000000000`, i.e. `0x1b` reflected, `xorout =
0xFFFFFFFFFFFFFFFF`), used through
`digest_with_initial(prev).update(data).finalize()`: the initial value is
bit-reversed (`refin`, width 64), each byte drives eight reflected
polynomial steps, and finalization xors with `xorout`.  The chain
theorems below treat this function as opaque. -/
def reverse64 (x : Nat) : Nat :=
  (List.range 64).foldl (fun acc i => acc * 2 + (x / 2 ^ i) % 2) 0

/-- One reflected polynomial step of the CRC-64/GO-ISO update. -/
def crcPolyStep (t : Nat) : Nat :=
  if t % 2 = 1 then (t / 2) ^^^ 0xD800000000000000 else t / 2

/-- One byte of the reflected CRC-64 update. -/
def crcByte (s b : Nat) : Nat :=
  crcPolyStep^[8] ((s ^^^ b % 256) % 2 ^ 64)

/-- CRC-64/GO-ISO digest seeded with `initial` over `data` (see
`reverse64` for the derivation from the `crc` crate). -/
def crc64GoIso (initial : Nat) (data : List Nat) : Nat :=
  (data.foldl crcByte (reverse64 (initial % 2 ^ 64))) ^^^ 0xFFFFFFFFFFFFFFFF

/-- Magic number `b"SQLDWAL\x5c0"` as a little-endian u64
(`WAL_MAGIC` in `src/replication/mod.rs`, modelled from the spec). -/
def WAL_MAGIC : Nat := 0x004c4157444c5153

/-- Page size (`WAL_PAGE_SIZE` in `src/replication/mod.rs`, spec §3). -/
def WAL_PAGE_SIZE : Nat := 4096

/-- Size in bytes of `FrameHeader` (4 packed fields: 8+8+4+4). -/
def FRAME_HEADER_SIZE : Nat := 24

/-- Size in bytes of `LogFileHeader` (packed, see above). -/
def LOG_FILE_HEADER_SIZE : Nat := 64

namespace LogFile

/-- `LogFile::FRAME_SIZE = size_of::<FrameHeader>() + WAL_PAGE_SIZE`. -/
def FRAME_SIZE : Nat := FRAME_HEADER_SIZE + WAL_PAGE_SIZE

/-- Byte position of the `nth` entry of the log
(`LogFile::absolute_byte_offset`). -/
def absoluteByteOffset (nth : Nat) : Nat :=
  LOG_FILE_HEADER_SIZE + nth * FRAME_SIZE

/-- Offset in bytes at which to write the next frame
(`LogFile::next_byte_offset`). -/
def nextByteOffset (lf : LogFile) : Nat :=
  absoluteByteOffset (lf.header.frame_count + lf.uncommitted_frame_count)

/-- Frame number of the next frame (`LogFile::next_frame_no`). -/
def nextFrameNo (lf : LogFile) : Nat :=
  lf.header.start_frame_no + lf.header.frame_count + lf.uncommitted_frame_count

/-- Rolling checksum of a page (`LogFile::compute_checksum`):
`CRC_64_GO_ISO.digest_with_initial(self.uncommitted_checksum)` updated
with the page body. -/
def computeChecksum (lf : LogFile) (page : WalPage) : Nat :=
  crc64GoIso lf.uncommitted_checksum page.data

/-- The frame record a `push_page` call assembles before writing. -/
def pushedFrame (lf : LogFile) (page : WalPage) : Frame :=
  Frame.from_parts
    ⟨lf.nextFrameNo, lf.computeChecksum page, page.page_no, page.size_after⟩
    page.data

/-- `LogFile::push_page`: write the assembled frame at
`next_byte_offset`, then bump the uncommitted count and the rolling
checksum. -/
def pushPage (lf : LogFile) (page : WalPage) : LogFile :=
  { lf with
    data := Function.update lf.data lf.nextByteOffset (some (lf.pushedFrame page)),
    uncommitted_frame_count := lf.uncommitted_frame_count + 1,
    uncommitted_checksum := lf.computeChecksum page }

/-- `LogFile::commit`: publish the uncommitted frames in the header and
promote the rolling checksum (the source then rewrites the header bytes
at offset 0, which the model keeps in `header`). -/
def commit (lf : LogFile) : LogFile :=
  { lf with
    header := { lf.header with
      frame_count := lf.header.frame_count + lf.uncommitted_frame_count },
    uncommitted_frame_count := 0,
    commited_checksum := lf.uncommitted_checksum }

/-- `LogFile::rollback`: drop the uncommitted count and reset the
rolling checksum to the last committed value. -/
def rollback (lf : LogFile) : LogFile :=
  { lf with
    uncommitted_frame_count := 0,
    uncommitted_checksum := lf.commited_checksum }

/-- `LogFile::read_frame_byte_offset`: read one frame record back from
the file; a missing record is the I/O / framing error case. -/
def readFrameByteOffset (lf : LogFile) (offset : Nat) :
    Except LogReadError Frame :=
  match lf.data offset with
  | some frame => Except.ok frame
  | none => Except.error LogReadError.Error

/-- `LogFile::byte_offset`: `None` outside
`[start_frame_no, start_frame_no + frame_count]`, else the absolute
offset of the entry. -/
def byteOffset (lf : LogFile) (id : Nat) : Option Nat :=
  if id < lf.header.start_frame_no ∨
      lf.header.start_frame_no + lf.header.frame_count < id then
    none
  else
    some (absoluteByteOffset (id - lf.header.start_frame_no))

/-- `LogFile::frame`: frame lookup with its error classification.  In
the in-range branch the source unwraps `byte_offset` (provably `Some`
there); the model maps the impossible `None` to the error case. -/
def frame (lf : LogFile) (frame_no : Nat) : Except LogReadError Frame :=
  if frame_no < lf.header.start_frame_no then
    Except.error LogReadError.SnapshotRequired
  else if lf.header.start_frame_no + lf.header.frame_count ≤ frame_no then
    Except.error LogReadError.Ahead
  else
    match lf.byteOffset frame_no with
    | some offset => lf.readFrameByteOffset offset
    | none => Except.error LogReadError.Error

/-- A fresh log file (`LogFile::new` on an empty file): fresh header
with `version = 2`, `start_frame_no = 0`, `start_checksum = 0`, a new
db UUID, and zeroed in-memory counters. -/
def fresh (db_id : Nat) : LogFile :=
  { data := fun _ => none,
    header :=
      { magic := WAL_MAGIC, start_checksum := 0, db_id := db_id,
        start_frame_no := 0, frame_count := 0, version := 2,
        page_size := WAL_PAGE_SIZE, sqld_version := 0 },
    uncommitted_frame_count := 0,
    uncommitted_checksum := 0,
    commited_checksum := 0 }

end LogFile

/-- The `LogFile` operations a WAL-hook lifetime interleaves:
`push_page` (from `write_pages`), `commit`, and `rollback` (from
`on_undo`). -/
inductive LogOp where
  | push (page : WalPage)
  | commit
  | rollback

/-- Apply one log operation. -/
def applyOp (lf : LogFile) : LogOp → LogFile
  | LogOp.push page => lf.pushPage page
  | LogOp.commit => lf.commit
  | LogOp.rollback => lf.rollback

/-- Apply a sequence of log operations. -/
def applyOps (lf : LogFile) (ops : List LogOp) : LogFile :=
  ops.foldl applyOp lf

/-- Ghost-extended application: alongside the `LogFile`, keep the list
of live frame records as `push_page` assembled them, slot by slot
(`rollback` drops the records past the committed count, whose slots may
be overwritten later). -/
def applyOpW : LogFile × List Frame → LogOp → LogFile × List Frame
  | (lf, w), LogOp.push page => (lf.pushPage page, w ++ [lf.pushedFrame page])
  | (lf, w), LogOp.commit => (lf.commit, w)
  | (lf, w), LogOp.rollback => (lf.rollback, w.take lf.header.frame_count)

/-- Fold of `applyOpW`. -/
def applyOpsW (s : LogFile × List Frame) (ops : List LogOp) : LogFile × List Frame :=
  ops.foldl applyOpW s

/-- `ReplicationLogger::recover` restricted to its log-file effect: the
log is reset to a fresh one, then for each database page (pages are the
4096-byte chunks of the database file, in order) a `WalPage` with
`page_no` starting at 1 and `size_after = num_pages` on the last page
only is pushed and committed, once per page. -/
def recover (db_id : Nat) (pages : List (List Nat)) : LogFile :=
  (List.range pages.length).foldl
    (fun lf i =>
      (lf.pushPage
        ⟨i + 1, if i = pages.length - 1 then pages.length else 0,
          pages.getD i []⟩).commit)
    (LogFile.fresh db_id)

/-- The `should_recover` condition of `ReplicationLogger::open`:
recover when the database is flagged dirty, or the log version is `< 2`,
or the recorded sqld version differs, or the log is fresh while a
database file exists. -/
def shouldRecover (dirty : Bool) (version : Nat) (versionMatches : Bool)
    (freshLog : Bool) (dataExists : Bool) : Bool :=
  if dirty then true
  else if version < 2 ∨ versionMatches = false then true
  else if freshLog && dataExists then true
  else false

/-! ## Log invariants -/

/-- Checksum of the last frame of `w`, or the default `d` when `w` is
empty (the seed the next `push_page` must use). -/
def lastCk (d : Nat) (w : List Frame) : Nat :=
  match w.getLast? with
  | some f => f.header.checksum
  | none => d

/-- The rolling-checksum chain: each frame's checksum is the CRC-64 of
its page body seeded with its predecessor's checksum (with `prev` for
the first frame). -/
def chainOk (prev : Nat) : List Frame → Prop
  | [] => True
  | f :: rest =>
    f.header.checksum = crc64GoIso prev f.page ∧ chainOk f.header.checksum rest

theorem lastCk_cons (d : Nat) (f : Frame) (rest : List Frame) :
    lastCk d (f :: rest) = lastCk f.header.checksum rest := by
  cases rest <;> simp [lastCk, List.getLast?]

theorem lastCk_concat (d : Nat) (w : List Frame) (f : Frame) :
    lastCk d (w ++ [f]) = f.header.checksum := by
  simp [lastCk]

theorem chainOk_concat (s : Nat) (w : List Frame) (f : Frame) :
    chainOk s (w ++ [f]) ↔
      chainOk s w ∧ f.header.checksum = crc64GoIso (lastCk s w) f.page := by
  induction w generalizing s with
  | nil => simp [chainOk, lastCk]
  | cons g rest ih =>
    rw [List.cons_append]
    show g.header.checksum = crc64GoIso s g.page ∧
        chainOk g.header.checksum (rest ++ [f]) ↔ _
    rw [ih, lastCk_cons,
      show chainOk s (g :: rest) =
        (g.header.checksum = crc64GoIso s g.page ∧
          chainOk g.header.checksum rest) from rfl,
      and_assoc]

theorem chainOk_take (s : Nat) (w : List Frame) (n : Nat)
    (h : chainOk s w) : chainOk s (w.take n) := by
  induction w generalizing s n with
  | nil => simp [chainOk]
  | cons f rest ih =>
    cases n with
    | zero => trivial
    | succ m => exact ⟨h.1, ih _ _ h.2⟩

theorem chainOk_getElem_zero (s : Nat) (w : List Frame)
    (hc : chainOk s w) (h : 0 < w.length) :
    (w[0]).header.checksum = crc64GoIso s (w[0]).page := by
  cases w with
  | nil => simp at h
  | cons f rest => exact hc.1

theorem chainOk_getElem_succ (s : Nat) (w : List Frame) (hc : chainOk s w) :
    ∀ i (h : i + 1 < w.length),
      (w[i + 1]).header.checksum =
        crc64GoIso ((w[i]).header.checksum) ((w[i + 1]).page) := by
  induction w generalizing s with
  | nil => intro i h; simp at h
  | cons f rest ih =>
    intro i h
    cases i with
    | zero =>
      have h0 : 0 < rest.length := by simpa using h
      simpa using chainOk_getElem_zero _ rest hc.2 h0
    | succ j =>
      have hj : j + 1 < rest.length := by simpa using h
      simpa using ih _ hc.2 j hj

/-- `absolute_byte_offset` is injective: distinct entries live at
distinct byte offsets. -/
theorem absoluteByteOffset_inj {i j : Nat}
    (h : LogFile.absoluteByteOffset i = LogFile.absoluteByteOffset j) : i = j := by
  simp only [LogFile.absoluteByteOffset, LogFile.FRAME_SIZE, FRAME_HEADER_SIZE,
    WAL_PAGE_SIZE, LOG_FILE_HEADER_SIZE] at h
  omega

/-- State invariant of a `LogFile` together with the ghost list `w` of
its live frame records: `w` mirrors the committed and uncommitted slots
of the file, its checksums chain from `header.start_checksum`, its frame
numbers are dense from `start_frame_no`, and the two in-memory rolling
checksums point at the right links of the chain. -/
structure LogInv (lf : LogFile) (w : List Frame) : Prop where
  len : w.length = lf.header.frame_count + lf.uncommitted_frame_count
  slots : ∀ i (h : i < w.length),
    lf.data (LogFile.absoluteByteOffset i) = some w[i]
  chain : chainOk lf.header.start_checksum w
  frameNos : ∀ i (h : i < w.length),
    (w[i]).header.frame_no = lf.header.start_frame_no + i
  uck : lf.uncommitted_checksum = lastCk lf.header.start_checksum w
  cck : lf.commited_checksum =
    lastCk lf.header.start_checksum (w.take lf.header.frame_count)

theorem logInv_fresh (db_id : Nat) : LogInv (LogFile.fresh db_id) [] := by
  refine ⟨rfl, ?_, trivial, ?_, rfl, rfl⟩ <;> (intro i h; simp at h)

theorem logInv_pushPage {lf : LogFile} {w : List Frame} (inv : LogInv lf w)
    (page : WalPage) :
    LogInv (lf.pushPage page) (w ++ [lf.pushedFrame page]) := by
  have hlen : lf.header.frame_count + lf.uncommitted_frame_count = w.length :=
    inv.len.symm
  have hcount : lf.header.frame_count ≤ w.length := by omega
  refine ⟨?_, ?_, ?_, ?_, ?_, ?_⟩
  · simp [LogFile.pushPage, inv.len]; omega
  · intro i h
    have hlen2 : (w ++ [lf.pushedFrame page]).length = w.length + 1 := by simp
    simp only [LogFile.pushPage, LogFile.nextByteOffset, hlen]
    rcases Nat.lt_or_ge i w.length with hi | hi
    · have hne : LogFile.absoluteByteOffset i ≠ LogFile.absoluteByteOffset w.length :=
        fun hc => absurd (absoluteByteOffset_inj hc) (Nat.ne_of_lt hi)
      rw [Function.update_noteq hne, inv.slots i hi,
        List.getElem_append_left hi]
    · have hi2 : i = w.length := by omega
      subst hi2
      rw [Function.update_same]
      congr 1
      rw [List.getElem_append_right (Nat.le_refl _)]
      simp
  · rw [show (lf.pushPage page).header = lf.header from rfl]
    refine (chainOk_concat _ _ _).mpr ⟨inv.chain, ?_⟩
    simp [LogFile.pushedFrame, LogFile.computeChecksum, Frame.from_parts, inv.uck]
  · intro i h
    have hlen2 : (w ++ [lf.pushedFrame page]).length = w.length + 1 := by simp
    rw [show (lf.pushPage page).header = lf.header from rfl]
    rcases Nat.lt_or_ge i w.length with hi | hi
    · rw [List.getElem_append_left hi]
      exact inv.frameNos i hi
    · have hi2 : i = w.length := by omega
      subst hi2
      rw [List.getElem_append_right (Nat.le_refl _)]
      simp only [Nat.sub_self, List.getElem_cons_zero, LogFile.pushedFrame,
        LogFile.nextFrameNo, Frame.from_parts]
      omega
  · rw [show (lf.pushPage page).uncommitted_checksum = lf.computeChecksum page from rfl,
      show (lf.pushPage page).header = lf.header from rfl, lastCk_concat]
    simp [LogFile.pushedFrame, LogFile.computeChecksum, Frame.from_parts]
  · rw [show (lf.pushPage page).commited_checksum = lf.commited_checksum from rfl,
      show (lf.pushPage page).header = lf.header from rfl]
    rw [List.take_append_eq_append_take, Nat.sub_eq_zero_of_le hcount]
    simpa using inv.cck

theorem logInv_commit {lf : LogFile} {w : List Frame} (inv : LogInv lf w) :
    LogInv lf.commit w := by
  refine ⟨?_, inv.slots, inv.chain, inv.frameNos, inv.uck, ?_⟩
  · simp [LogFile.commit, inv.len]
  · rw [show lf.commit.commited_checksum = lf.uncommitted_checksum from rfl,
      show lf.commit.header.frame_count =
        lf.header.frame_count + lf.uncommitted_frame_count from rfl,
      show lf.commit.header.start_checksum = lf.header.start_checksum from rfl,
      ← inv.len, List.take_length]
    exact inv.uck

theorem logInv_rollback {lf : LogFile} {w : List Frame} (inv : LogInv lf w) :
    LogInv lf.rollback (w.take lf.header.frame_count) := by
  have hcount : lf.header.frame_count ≤ w.length := by
    have := inv.len; omega
  refine ⟨?_, ?_, ?_, ?_, ?_, ?_⟩
  · simp [LogFile.rollback, List.length_take, Nat.min_eq_left hcount]
  · intro i h
    have hi : i < lf.header.frame_count := by
      simpa [List.length_take, Nat.min_eq_left hcount] using h
    have hiw : i < w.length := lt_of_lt_of_le hi hcount
    have hgt : (List.take lf.header.frame_count w)[i] = w[i] :=
      List.getElem_take w
    rw [show lf.rollback.data = lf.data from rfl, inv.slots i hiw, hgt]
  · exact chainOk_take _ _ _ inv.chain
  · intro i h
    have hi : i < lf.header.frame_count := by
      simpa [List.length_take, Nat.min_eq_left hcount] using h
    have hiw : i < w.length := lt_of_lt_of_le hi hcount
    have hgt : (List.take lf.header.frame_count w)[i] = w[i] :=
      List.getElem_take w
    rw [hgt]
    exact inv.frameNos i hiw
  · rw [show lf.rollback.uncommitted_checksum = lf.commited_checksum from rfl,
      show lf.rollback.header = lf.header from rfl]
    exact inv.cck
  · rw [show lf.rollback.commited_checksum = lf.commited_checksum from rfl,
      show lf.rollback.header = lf.header from rfl, List.take_take,
      Nat.min_self]
    exact inv.cck

theorem logInv_applyOpW {s : LogFile × List Frame} (inv : LogInv s.1 s.2)
    (op : LogOp) : LogInv (applyOpW s op).1 (applyOpW s op).2 := by
  obtain ⟨lf, w⟩ := s
  cases op with
  | push page => exact logInv_pushPage inv page
  | commit => exact logInv_commit inv
  | rollback => exact logInv_rollback inv

theorem logInv_applyOpsW {s : LogFile × List Frame} (inv : LogInv s.1 s.2)
    (ops : List LogOp) : LogInv (applyOpsW s ops).1 (applyOpsW s ops).2 := by
  induction ops generalizing s with
  | nil => exact inv
  | cons op rest ih => exact ih (logInv_applyOpW inv op)

theorem applyOpsW_fst (lf : LogFile) (w : List Frame) (ops : List LogOp) :
    (applyOpsW (lf, w) ops).1 = applyOps lf ops := by
  induction ops generalizing lf w with
  | nil => rfl
  | cons op rest ih =>
    cases op <;> simpa [applyOpsW, applyOps, applyOpW, applyOp] using ih _ _

/-- The header fields `start_frame_no` and `start_checksum` are never
touched by push/commit/rollback. -/
theorem applyOps_header_start (lf : LogFile) (ops : List LogOp) :
    (applyOps lf ops).header.start_frame_no = lf.header.start_frame_no ∧
    (applyOps lf ops).header.start_checksum = lf.header.start_checksum := by
  induction ops generalizing lf with
  | nil => exact ⟨rfl, rfl⟩
  | cons op rest ih =>
    cases op <;>
      simpa [applyOps, applyOp, LogFile.pushPage, LogFile.commit,
        LogFile.rollback] using ih _

/-- A successful frame lookup only happens inside
`[start_frame_no, start_frame_no + frame_count)`. -/
theorem frame_ok_range {lf : LogFile} {n : Nat} {f : Frame}
    (h : lf.frame n = Except.ok f) :
    lf.header.start_frame_no ≤ n ∧
      n < lf.header.start_frame_no + lf.header.frame_count := by
  by_cases h1 : n < lf.header.start_frame_no
  · simp [LogFile.frame, h1] at h
  · by_cases h2 : lf.header.start_frame_no + lf.header.frame_count ≤ n
    · simp [LogFile.frame, h1, h2] at h
    · omega

/-- Under the invariant, looking up committed frame `i` returns the
ghost record of slot `i`. -/
theorem logInv_frame_ok {lf : LogFile} {w : List Frame} (inv : LogInv lf w)
    {i : Nat} (h : i < lf.header.frame_count) :
    ∃ hw : i < w.length,
      lf.frame (lf.header.start_frame_no + i) = Except.ok w[i] := by
  have hw : i < w.length := by have := inv.len; omega
  refine ⟨hw, ?_⟩
  have h1 : ¬ (lf.header.start_frame_no + i < lf.header.start_frame_no) := by omega
  have h2 : ¬ (lf.header.start_frame_no + lf.header.frame_count ≤
      lf.header.start_frame_no + i) := by omega
  have hcond : ¬ (lf.header.start_frame_no + i < lf.header.start_frame_no ∨
      lf.header.start_frame_no + lf.header.frame_count <
        lf.header.start_frame_no + i) := by omega
  have hsub : lf.header.start_frame_no + i - lf.header.start_frame_no = i := by omega
  have hbo : lf.byteOffset (lf.header.start_frame_no + i) =
      some (LogFile.absoluteByteOffset i) := by
    simp [LogFile.byteOffset, hcond, hsub]
    omega
  simp [LogFile.frame, h1, h2, hbo, LogFile.readFrameByteOffset, inv.slots i hw]

/-- C5: frame lookup classifies errors exactly: `SnapshotRequired` iff
the frame number is below `start_frame_no`, `Ahead` iff it is at or past
`start_frame_no + frame_count`, and otherwise the frame is read at the
computed offset — so the set of frame numbers served without those
errors is exactly `[start_frame_no, start_frame_no + frame_count)`. -/
theorem get_frame_spec :
    ∀ (lf : LogFile) (n : Nat),
      (lf.frame n = Except.error LogReadError.SnapshotRequired ↔
        n < lf.header.start_frame_no) ∧
      (lf.frame n = Except.error LogReadError.Ahead ↔
        lf.header.start_frame_no + lf.header.frame_count ≤ n) ∧
      (lf.header.start_frame_no ≤ n →
        n < lf.header.start_frame_no + lf.header.frame_count →
        lf.byteOffset n =
          some (LogFile.absoluteByteOffset (n - lf.header.start_frame_no)) ∧
        lf.frame n = lf.readFrameByteOffset
          (LogFile.absoluteByteOffset (n - lf.header.start_frame_no))) := by
  intro lf n
  by_cases h1 : n < lf.header.start_frame_no
  · have hfr : lf.frame n = Except.error LogReadError.SnapshotRequired := by
      simp [LogFile.frame, h1]
    refine ⟨⟨fun _ => h1, fun _ => hfr⟩, ⟨fun hc => ?_, fun hc => ?_⟩,
      fun ha _ => absurd ha (by omega)⟩
    · rw [hfr] at hc
      exact LogReadError.noConfusion (Except.error.inj hc)
    · omega
  · by_cases h2 : lf.header.start_frame_no + lf.header.frame_count ≤ n
    · have hfr : lf.frame n = Except.error LogReadError.Ahead := by
        simp [LogFile.frame, h1, h2]
      refine ⟨⟨fun hc => ?_, fun hc => absurd hc h1⟩,
        ⟨fun _ => h2, fun _ => hfr⟩, fun _ hb => absurd hb (by omega)⟩
      rw [hfr] at hc
      exact LogReadError.noConfusion (Except.error.inj hc)
    · have hcond : ¬ (n < lf.header.start_frame_no ∨
          lf.header.start_frame_no + lf.header.frame_count < n) := by omega
      have hbo : lf.byteOffset n =
          some (LogFile.absoluteByteOffset (n - lf.header.start_frame_no)) := by
        simp [LogFile.byteOffset, hcond]
      have hfr : lf.frame n = lf.readFrameByteOffset
          (LogFile.absoluteByteOffset (n - lf.header.start_frame_no)) := by
        simp [LogFile.frame, h1, h2, hbo]
      have hnot : ∀ e, lf.readFrameByteOffset
          (LogFile.absoluteByteOffset (n - lf.header.start_frame_no)) =
            Except.error e → e = LogReadError.Error := by
        intro e he
        unfold LogFile.readFrameByteOffset at he
        cases hd : lf.data (LogFile.absoluteByteOffset
            (n - lf.header.start_frame_no)) <;> rw [hd] at he
        · exact (Except.error.inj he).symm
        · exact Except.noConfusion he
      refine ⟨⟨fun hc => ?_, fun hc => absurd hc h1⟩,
        ⟨fun hc => ?_, fun hc => absurd hc h2⟩, fun _ _ => ⟨hbo, hfr⟩⟩
      · rw [hfr] at hc
        exact LogReadError.noConfusion (hnot _ hc)
      · rw [hfr] at hc
        exact LogReadError.noConfusion (hnot _ hc)

/-- C5 witness: on the log holding exactly one committed frame, frame 0
is served by a read at the computed offset, and frames below/above the
valid window give the two errors. -/
theorem get_frame_spec_witness :
    (((LogFile.fresh 0).pushPage ⟨1, 1, [3]⟩).commit).byteOffset 0 =
        some (LogFile.absoluteByteOffset 0) ∧
    (((LogFile.fresh 0).pushPage ⟨1, 1, [3]⟩).commit).frame 0 =
      (((LogFile.fresh 0).pushPage ⟨1, 1, [3]⟩).commit).readFrameByteOffset
        (LogFile.absoluteByteOffset 0) ∧
    (((LogFile.fresh 0).pushPage ⟨1, 1, [3]⟩).commit).frame 1 =
      Except.error LogReadError.Ahead := by
  have h := (get_frame_spec (((LogFile.fresh 0).pushPage ⟨1, 1, [3]⟩).commit) 0).2.2
    (by decide) (by decide)
  have h2 := ((get_frame_spec (((LogFile.fresh 0).pushPage ⟨1, 1, [3]⟩).commit) 1).2.1).mpr
    (by decide)
  exact ⟨h.1, h.2, h2⟩

/-- C6: from a fresh log (whose `start_checksum` is 0), after any
sequence of `push_page`, `commit` and `rollback` operations, every
committed frame exists and its checksum is the CRC-64/GO-ISO of its page
body seeded with the previous frame's checksum, the first frame being
seeded with the header's `start_checksum`. -/
theorem checksum_chain_spec :
    ∀ (db_id : Nat) (ops : List LogOp),
      (applyOps (LogFile.fresh db_id) ops).header.start_checksum = 0 ∧
      (∀ i, i < (applyOps (LogFile.fresh db_id) ops).header.frame_count →
        ∃ f, (applyOps (LogFile.fresh db_id) ops).frame
            ((applyOps (LogFile.fresh db_id) ops).header.start_frame_no + i) =
          Except.ok f) ∧
      (∀ f, (applyOps (LogFile.fresh db_id) ops).frame
          ((applyOps (LogFile.fresh db_id) ops).header.start_frame_no + 0) =
            Except.ok f →
        f.header.checksum = crc64GoIso
          ((applyOps (LogFile.fresh db_id) ops).header.start_checksum) f.page) ∧
      (∀ i f g,
        (applyOps (LogFile.fresh db_id) ops).frame
          ((applyOps (LogFile.fresh db_id) ops).header.start_frame_no + i) =
            Except.ok f →
        (applyOps (LogFile.fresh db_id) ops).frame
          ((applyOps (LogFile.fresh db_id) ops).header.start_frame_no + (i + 1)) =
            Except.ok g →
        g.header.checksum = crc64GoIso f.header.checksum g.page) := by
  intro db_id ops
  have inv0 : LogInv (LogFile.fresh db_id, ([] : List Frame)).1
      (LogFile.fresh db_id, ([] : List Frame)).2 := logInv_fresh db_id
  have inv := logInv_applyOpsW inv0 ops
  rw [applyOpsW_fst] at inv
  set lf := applyOps (LogFile.fresh db_id) ops with hlf
  set w := (applyOpsW (LogFile.fresh db_id, ([] : List Frame)) ops).2 with hw
  have hstart : lf.header.start_checksum = 0 :=
    (applyOps_header_start (LogFile.fresh db_id) ops).2
  refine ⟨hstart, ?_, ?_, ?_⟩
  · intro i hi
    obtain ⟨hwi, hfr⟩ := logInv_frame_ok inv hi
    exact ⟨w[i], hfr⟩
  · intro f hf
    have hrange := frame_ok_range hf
    have h0 : 0 < lf.header.frame_count := by omega
    obtain ⟨hw0, hfr⟩ := logInv_frame_ok inv h0
    rw [hf] at hfr
    have hfw : f = w[0] := Except.ok.inj hfr
    rw [hfw]
    exact chainOk_getElem_zero _ w inv.chain hw0
  · intro i f g hf hg
    have hrange := frame_ok_range hg
    have hisucc : i + 1 < lf.header.frame_count := by omega
    have hi : i < lf.header.frame_count := by omega
    obtain ⟨hwi, hfri⟩ := logInv_frame_ok inv hi
    obtain ⟨hwis, hfris⟩ := logInv_frame_ok inv hisucc
    rw [hf] at hfri
    rw [hg] at hfris
    rw [Except.ok.inj hfri, Except.ok.inj hfris]
    exact chainOk_getElem_succ _ w inv.chain i hwis

/-- C6 witness: a fresh log after one push and one commit: frame 0
exists and carries the CRC of its page seeded with `start_checksum` = 0. -/
theorem checksum_chain_spec_witness :
    (applyOps (LogFile.fresh 0) [LogOp.push ⟨1, 1, [3]⟩, LogOp.commit]).header.start_checksum
        = 0 ∧
    ∃ f, (applyOps (LogFile.fresh 0) [LogOp.push ⟨1, 1, [3]⟩, LogOp.commit]).frame
        ((applyOps (LogFile.fresh 0)
          [LogOp.push ⟨1, 1, [3]⟩, LogOp.commit]).header.start_frame_no + 0) =
      Except.ok f :=
  ⟨(checksum_chain_spec 0 [LogOp.push ⟨1, 1, [3]⟩, LogOp.commit]).1,
    (checksum_chain_spec 0 [LogOp.push ⟨1, 1, [3]⟩, LogOp.commit]).2.1 0 (by decide)⟩

/-- C7: round-trip: after any operation sequence from a fresh log, every
frame number `n` in `[start_frame_no, start_frame_no + frame_count)` is
looked up as exactly the frame record `push_page` wrote for segment
index `n - start_frame_no`, at byte offset
`LOG_FILE_HEADER_SIZE + index * FRAME_SIZE`, with
`FRAME_SIZE = size_of FrameHeader + 4096`. -/
theorem log_roundtrip_spec :
    ∀ (db_id : Nat) (ops : List LogOp) (n : Nat),
      LogFile.FRAME_SIZE = FRAME_HEADER_SIZE + WAL_PAGE_SIZE ∧
      WAL_PAGE_SIZE = 4096 ∧
      ((applyOpsW (LogFile.fresh db_id, []) ops).1.header.start_frame_no ≤ n →
        n < (applyOpsW (LogFile.fresh db_id, []) ops).1.header.start_frame_no +
          (applyOpsW (LogFile.fresh db_id, []) ops).1.header.frame_count →
        ∃ hw : n - (applyOpsW (LogFile.fresh db_id, []) ops).1.header.start_frame_no <
            (applyOpsW (LogFile.fresh db_id, []) ops).2.length,
          (applyOpsW (LogFile.fresh db_id, []) ops).1.byteOffset n =
            some (LOG_FILE_HEADER_SIZE +
              (n - (applyOpsW (LogFile.fresh db_id, []) ops).1.header.start_frame_no) *
                LogFile.FRAME_SIZE) ∧
          (applyOpsW (LogFile.fresh db_id, []) ops).1.frame n =
            Except.ok ((applyOpsW (LogFile.fresh db_id, []) ops).2)[n -
              (applyOpsW (LogFile.fresh db_id, []) ops).1.header.start_frame_no]) := by
  intro db_id ops n
  refine ⟨rfl, rfl, ?_⟩
  intro ha hb
  have inv0 : LogInv (LogFile.fresh db_id, ([] : List Frame)).1
      (LogFile.fresh db_id, ([] : List Frame)).2 := logInv_fresh db_id
  have inv := logInv_applyOpsW inv0 ops
  set lf := (applyOpsW (LogFile.fresh db_id, ([] : List Frame)) ops).1 with hlf
  set w := (applyOpsW (LogFile.fresh db_id, ([] : List Frame)) ops).2 with hw
  have hi : n - lf.header.start_frame_no < lf.header.frame_count := by omega
  obtain ⟨hwi, hfr⟩ := logInv_frame_ok inv hi
  have hn : lf.header.start_frame_no + (n - lf.header.start_frame_no) = n := by omega
  rw [hn] at hfr
  refine ⟨hwi, ?_, hfr⟩
  exact ((get_frame_spec lf n).2.2 ha hb).1

/-- C7 witness: the one-frame log: frame 0 reads back the record pushed
at byte offset 64. -/
theorem log_roundtrip_spec_witness :
    ∃ hw : 0 - (applyOpsW (LogFile.fresh 0, [])
        [LogOp.push ⟨1, 1, [3]⟩, LogOp.commit]).1.header.start_frame_no <
      (applyOpsW (LogFile.fresh 0, [])
        [LogOp.push ⟨1, 1, [3]⟩, LogOp.commit]).2.length,
      (applyOpsW (LogFile.fresh 0, [])
          [LogOp.push ⟨1, 1, [3]⟩, LogOp.commit]).1.byteOffset 0 =
        some (LOG_FILE_HEADER_SIZE +
          (0 - (applyOpsW (LogFile.fresh 0, [])
            [LogOp.push ⟨1, 1, [3]⟩, LogOp.commit]).1.header.start_frame_no) *
              LogFile.FRAME_SIZE) ∧
      (applyOpsW (LogFile.fresh 0, [])
          [LogOp.push ⟨1, 1, [3]⟩, LogOp.commit]).1.frame 0 =
        Except.ok ((applyOpsW (LogFile.fresh 0, [])
          [LogOp.push ⟨1, 1, [3]⟩, LogOp.commit]).2)[0 -
            (applyOpsW (LogFile.fresh 0, [])
              [LogOp.push ⟨1, 1, [3]⟩, LogOp.commit]).1.header.start_frame_no] :=
  (log_roundtrip_spec 0 [LogOp.push ⟨1, 1, [3]⟩, LogOp.commit] 0).2.2
    (by decide) (by decide)

/-- C8: `header.frame_count` is advanced only by `commit` (by exactly
the uncommitted count, i.e. the number of frames pushed since the last
commit); `push_page` and `rollback` leave the header untouched;
`rollback` zeroes the uncommitted count, resets the rolling checksum to
the last committed one and leaves the file bytes (hence every committed
frame) unchanged; and a push after a rollback writes to the slot
directly after the committed frames. -/
theorem commit_rollback_spec :
    ∀ (lf : LogFile) (p : WalPage),
      (lf.pushPage p).header = lf.header ∧
      (lf.pushPage p).uncommitted_frame_count = lf.uncommitted_frame_count + 1 ∧
      lf.commit.header.frame_count =
        lf.header.frame_count + lf.uncommitted_frame_count ∧
      lf.commit.uncommitted_frame_count = 0 ∧
      lf.commit.data = lf.data ∧
      lf.rollback.header = lf.header ∧
      lf.rollback.uncommitted_frame_count = 0 ∧
      lf.rollback.uncommitted_checksum = lf.commited_checksum ∧
      lf.rollback.data = lf.data ∧
      lf.rollback.nextByteOffset =
        LogFile.absoluteByteOffset lf.header.frame_count ∧
      (lf.rollback.pushPage p).data
          (LogFile.absoluteByteOffset lf.header.frame_count) =
        some (lf.rollback.pushedFrame p) := by
  intro lf p
  refine ⟨rfl, rfl, rfl, rfl, rfl, rfl, rfl, rfl, rfl, rfl, ?_⟩
  show Function.update lf.rollback.data lf.rollback.nextByteOffset
      (some (lf.rollback.pushedFrame p))
      (LogFile.absoluteByteOffset lf.header.frame_count) = _
  rw [show lf.rollback.nextByteOffset =
      LogFile.absoluteByteOffset lf.header.frame_count from rfl]
  exact Function.update_same _ _ _

/-- Prefix of the recovery loop: the log after the first `n` pages have
been pushed and committed. -/
def recoverAux (db_id : Nat) (pages : List (List Nat)) (n : Nat) : LogFile :=
  (List.range n).foldl
    (fun lf i =>
      (lf.pushPage
        ⟨i + 1, if i = pages.length - 1 then pages.length else 0,
          pages.getD i []⟩).commit)
    (LogFile.fresh db_id)

theorem recover_eq_recoverAux (db_id : Nat) (pages : List (List Nat)) :
    recover db_id pages = recoverAux db_id pages pages.length := rfl

theorem recoverAux_succ (db_id : Nat) (pages : List (List Nat)) (n : Nat) :
    recoverAux db_id pages (n + 1) =
      ((recoverAux db_id pages n).pushPage
        ⟨n + 1, if n = pages.length - 1 then pages.length else 0,
          pages.getD n []⟩).commit := by
  unfold recoverAux
  rw [List.range_succ, List.foldl_append]
  rfl

/-- Invariant of the recovery loop: after `n` iterations the log holds
exactly `n` committed frames, one per processed page, in page order. -/
theorem recoverAux_inv (db_id : Nat) (pages : List (List Nat)) :
    ∀ n,
      (recoverAux db_id pages n).header.start_frame_no = 0 ∧
      (recoverAux db_id pages n).header.frame_count = n ∧
      (recoverAux db_id pages n).uncommitted_frame_count = 0 ∧
      (∀ i, i < n →
        ∃ f, (recoverAux db_id pages n).data (LogFile.absoluteByteOffset i) =
            some f ∧
          f.header.frame_no = i ∧
          f.header.page_no = i + 1 ∧
          f.header.size_after =
            (if i = pages.length - 1 then pages.length else 0) ∧
          f.page = pages.getD i []) := by
  intro n
  induction n with
  | zero => exact ⟨rfl, rfl, rfl, fun i hi => absurd hi (Nat.not_lt_zero i)⟩
  | succ n ih =>
    obtain ⟨h0, h1, h2, h3⟩ := ih
    have hnext : (recoverAux db_id pages n).nextByteOffset =
        LogFile.absoluteByteOffset n := by
      unfold LogFile.nextByteOffset
      rw [h1, h2]
      rfl
    refine ⟨?_, ?_, ?_, ?_⟩
    · rw [recoverAux_succ]; exact h0
    · rw [recoverAux_succ]
      show (recoverAux db_id pages n).header.frame_count +
        ((recoverAux db_id pages n).uncommitted_frame_count + 1) = n + 1
      rw [h1, h2]
    · rw [recoverAux_succ]; rfl
    · intro i hi
      rw [recoverAux_succ]
      have hdata : (((recoverAux db_id pages n).pushPage
          ⟨n + 1, if n = pages.length - 1 then pages.length else 0,
            pages.getD n []⟩).commit).data =
          Function.update (recoverAux db_id pages n).data
            (recoverAux db_id pages n).nextByteOffset
            (some ((recoverAux db_id pages n).pushedFrame
              ⟨n + 1, if n = pages.length - 1 then pages.length else 0,
                pages.getD n []⟩)) := rfl
      rw [hdata, hnext]
      rcases Nat.lt_or_ge i n with hlt | hge
      · rw [Function.update_noteq
          (fun hc => absurd (absoluteByteOffset_inj hc) (Nat.ne_of_lt hlt))]
        exact h3 i hlt
      · have hieq : i = n := by omega
        subst hieq
        rw [Function.update_same]
        refine ⟨(recoverAux db_id pages i).pushedFrame _, rfl, ?_, rfl, rfl, rfl⟩
        show (recoverAux db_id pages i).header.start_frame_no +
          (recoverAux db_id pages i).header.frame_count +
          (recoverAux db_id pages i).uncommitted_frame_count = i
        rw [h0, h1, h2]
        omega

/-- Lookup of a committed slot in a log whose `start_frame_no` is 0. -/
theorem frame_of_slot {lf : LogFile} {i : Nat} {f : Frame}
    (hstart : lf.header.start_frame_no = 0) (hi : i < lf.header.frame_count)
    (hslot : lf.data (LogFile.absoluteByteOffset i) = some f) :
    lf.frame i = Except.ok f := by
  have h1 : ¬ i < lf.header.start_frame_no := by omega
  have h2 : ¬ lf.header.start_frame_no + lf.header.frame_count ≤ i := by omega
  have hcond : ¬ (i < lf.header.start_frame_no ∨
      lf.header.start_frame_no + lf.header.frame_count < i) := by omega
  have hsub : i - lf.header.start_frame_no = i := by omega
  have hbo : lf.byteOffset i = some (LogFile.absoluteByteOffset i) := by
    simp [LogFile.byteOffset, hcond, hsub]
    try omega
  simp [LogFile.frame, h1, h2, hbo, LogFile.readFrameByteOffset, hslot]

/-- C9: recovery from a database file of `P` pages rebuilds the log with
`start_frame_no = 0` and `frame_count = P`, one committed frame per
database page in page order (frame `i` holds page number `i + 1` and the
page's bytes), with `size_after = P` on the last frame only and 0 on
every earlier frame; and a log header version `< 2` triggers recovery on
open. -/
theorem recovery_spec :
    ∀ (db_id : Nat) (pages : List (List Nat)),
      (recover db_id pages).header.start_frame_no = 0 ∧
      (recover db_id pages).header.frame_count = pages.length ∧
      (recover db_id pages).uncommitted_frame_count = 0 ∧
      (∀ i, i < pages.length →
        ∃ f, (recover db_id pages).frame i = Except.ok f ∧
          f.header.frame_no = i ∧
          f.header.page_no = i + 1 ∧
          f.header.size_after =
            (if i = pages.length - 1 then pages.length else 0) ∧
          f.page = pages.getD i []) ∧
      (∀ dirty versionMatches freshLog dataExists version, version < 2 →
        shouldRecover dirty version versionMatches freshLog dataExists = true) := by
  intro db_id pages
  obtain ⟨h0, h1, h2, h3⟩ := recoverAux_inv db_id pages pages.length
  rw [← recover_eq_recoverAux] at h0 h1 h2 h3
  refine ⟨h0, h1, h2, ?_, ?_⟩
  · intro i hi
    obtain ⟨f, hslot, hfno, hpno, hsa, hpg⟩ := h3 i hi
    exact ⟨f, frame_of_slot h0 (by omega) hslot, hfno, hpno, hsa, hpg⟩
  · intro dirty versionMatches freshLog dataExists version hv
    cases dirty <;> simp [shouldRecover, hv]

/-- C9 witness: recovering from a two-page database: frame 1 holds page
number 2, the second page's bytes and `size_after = 2`; a version-1 log
header triggers recovery. -/
theorem recovery_spec_witness :
    (∃ f, (recover 0 [[1], [2]]).frame 1 = Except.ok f ∧
      f.header.frame_no = 1 ∧
      f.header.page_no = 2 ∧
      f.header.size_after = (if 1 = [[1], [2]].length - 1 then [[1], [2]].length else 0) ∧
      f.page = [[1], [2]].getD 1 []) ∧
    shouldRecover false 1 true false false = true :=
  ⟨by
    have h := (recovery_spec 0 [[1], [2]]).2.2.2.1 1 (by decide)
    simpa using h,
   (recovery_spec 0 [[1], [2]]).2.2.2.2 false true false false 1 (by decide)⟩

end Sqld




